import Mathlib

/-!
Verification of the Cluck protocol codec (`cluck_message.py`) and server
dispatch / registry logic (`cluck_server.py`), shallowly embedded in Lean.
Bytes are modelled as `List Nat` (each element a byte value), Python `None`
as `Option.none`, and fallible operations (Python exceptions such as
`struct.error`, `TypeError`, `UnicodeDecodeError`, `ValueError`, `KeyError`)
as `Option`-returning functions where `none` marks the raised exception.
-/

namespace Cluck

/-! ## Constants from cluck_message.py -/

def CODE_SIZE : Nat := 2
def LENGTH_SIZE : Nat := 2
def HEADER_SIZE : Nat := CODE_SIZE + LENGTH_SIZE

def EMPTY_LENGTH : Nat := 0

def CODE_MOTD : Nat := 1
def CODE_MOTD_REQUEST : Nat := 2
def CODE_COMMAND_SUCCESS : Nat := 10
def CODE_COMMAND_ERROR : Nat := 11
def CODE_REGISTER_USER : Nat := 100
def CODE_USER_STATUS : Nat := 101
def CODE_WHOAMI : Nat := 110

/-- The fixed enumeration of message codes from `cluck_message.py`. -/
def codes_enum : List Nat :=
  [CODE_MOTD, CODE_MOTD_REQUEST, CODE_COMMAND_SUCCESS, CODE_COMMAND_ERROR,
   CODE_REGISTER_USER, CODE_USER_STATUS, CODE_WHOAMI]

/-! ## UTF-8 codec, modelling Python `str.encode()` / `bytes.decode()`
(both default to strict UTF-8). -/

/-- Python `str.encode()` for a single character (standard UTF-8 encoding;
Lean `Char` is always a Unicode scalar value, as is each element of a
Python `str`). -/
def utf8_encode_char (c : Char) : List Nat :=
  let n := c.toNat
  if n < 0x80 then [n]
  else if n < 0x800 then [0xC0 + n / 64, 0x80 + n % 64]
  else if n < 0x10000 then [0xE0 + n / 4096, 0x80 + (n / 64) % 64, 0x80 + n % 64]
  else [0xF0 + n / 262144, 0x80 + (n / 4096) % 64, 0x80 + (n / 64) % 64, 0x80 + n % 64]

/-- Python `text.encode()`: strict UTF-8 encoding of a string. -/
def utf8_encode (s : String) : List Nat :=
  (s.data.map utf8_encode_char).flatten

/-- Strict UTF-8 decoder, as Python `bytes.decode()`: rejects invalid
leading bytes, truncated sequences, stray continuation bytes, overlong
encodings, surrogates and code points above U+10FFFF. `none` models a
raised `UnicodeDecodeError`. -/
def utf8_decode_chars : List Nat → Option (List Char)
  | [] => some []
  | b :: rest =>
    if b < 0x80 then
      (utf8_decode_chars rest).map (fun cs => Char.ofNat b :: cs)
    else if 0xC2 ≤ b ∧ b ≤ 0xDF then
      match rest with
      | b2 :: rest2 =>
        if 0x80 ≤ b2 ∧ b2 ≤ 0xBF then
          (utf8_decode_chars rest2).map
            (fun cs => Char.ofNat ((b - 0xC0) * 64 + (b2 - 0x80)) :: cs)
        else none
      | [] => none
    else if 0xE0 ≤ b ∧ b ≤ 0xEF then
      match rest with
      | b2 :: b3 :: rest3 =>
        let lo := if b = 0xE0 then 0xA0 else 0x80
        let hi := if b = 0xED then 0x9F else 0xBF
        if lo ≤ b2 ∧ b2 ≤ hi ∧ 0x80 ≤ b3 ∧ b3 ≤ 0xBF then
          (utf8_decode_chars rest3).map
            (fun cs => Char.ofNat ((b - 0xE0) * 4096 + (b2 - 0x80) * 64 + (b3 - 0x80)) :: cs)
        else none
      | _ => none
    else if 0xF0 ≤ b ∧ b ≤ 0xF4 then
      match rest with
      | b2 :: b3 :: b4 :: rest4 =>
        let lo := if b = 0xF0 then 0x90 else 0x80
        let hi := if b = 0xF4 then 0x8F else 0xBF
        if lo ≤ b2 ∧ b2 ≤ hi ∧ 0x80 ≤ b3 ∧ b3 ≤ 0xBF ∧ 0x80 ≤ b4 ∧ b4 ≤ 0xBF then
          (utf8_decode_chars rest4).map
            (fun cs => Char.ofNat
              ((b - 0xF0) * 262144 + (b2 - 0x80) * 4096 + (b3 - 0x80) * 64 + (b4 - 0x80)) :: cs)
        else none
      | _ => none
    else none

/-- Python `bytes.decode()` producing a string; `none` models
`UnicodeDecodeError`. -/
def utf8_decode (bs : List Nat) : Option String :=
  (utf8_decode_chars bs).map String.mk

/-! ## struct '!H' packing (2-byte big-endian unsigned) -/

/-- Python `struct.pack('!H', v)`: two big-endian bytes; `none` models the
`struct.error` raised when the value does not fit 16 bits. -/
def struct_pack_H (v : Nat) : Option (List Nat) :=
  if v ≤ 65535 then some [v / 256, v % 256] else none

/-- Python `struct.unpack('!H', b)[0]`: requires exactly two bytes; `none`
models the `struct.error` raised otherwise. -/
def struct_unpack_H : List Nat → Option Nat
  | [x, y] => some (x * 256 + y)
  | _ => none

/-! ## Message (cluck_message.py) -/

/-- The `Message` class: a code and an optional byte payload (`data` may be
Python `None`). -/
structure Message where
  code : Nat
  data : Option (List Nat)
deriving DecidableEq, Repr

/-- `Message.get_code`. -/
def Message.get_code (m : Message) : Nat := m.code

/-- `Message.get_length`: Python tests `if self.data:` (truthiness), so both
`None` and the empty byte string report `EMPTY_LENGTH`. -/
def Message.get_length (m : Message) : Nat :=
  match m.data with
  | some d => if d.isEmpty then EMPTY_LENGTH else d.length
  | none => EMPTY_LENGTH

/-- `Message.get_data`. -/
def Message.get_data (m : Message) : Option (List Nat) := m.data

/-- `Message.get_data_ascii`: `self.data.decode()`, i.e. strict UTF-8 decode
of the payload. `none` models the raised exception (`UnicodeDecodeError`,
or `AttributeError` when `data` is `None`). -/
def Message.get_data_ascii (m : Message) : Option String :=
  match m.data with
  | some d => utf8_decode d
  | none => none

/-- `Message.has_data`: truthiness of `self.data` (`None` and `b''` are
falsy). -/
def Message.has_data (m : Message) : Bool :=
  match m.data with
  | some d => !d.isEmpty
  | none => false

/-- `Message._pack_code`: `struct.pack('!H', self.code)`. -/
def Message._pack_code (m : Message) : Option (List Nat) :=
  struct_pack_H m.code

/-- `Message._pack_length`: `struct.pack('!H', self.get_length())`. -/
def Message._pack_length (m : Message) : Option (List Nat) :=
  struct_pack_H m.get_length

/-- `Message._pack_header`: code bytes followed by length bytes. -/
def Message._pack_header (m : Message) : Option (List Nat) := do
  let c ← m._pack_code
  let l ← m._pack_length
  return c ++ l

/-- `Message.pack`: `self._pack_header() + self.data`. When `data` is
`None`, the Python `bytes + None` concatenation raises `TypeError`,
modelled by `none` (the header is computed first, as in the source). -/
def Message.pack (m : Message) : Option (List Nat) := do
  let h ← m._pack_header
  match m.data with
  | some d => return h ++ d
  | none => none

/-! ## decode (cluck_message.py) -/

/-- `unpack_code(raw)`: `struct.unpack('!H', raw[0:CODE_SIZE])[0]`. -/
def unpack_code (raw : List Nat) : Option Nat :=
  struct_unpack_H (raw.take CODE_SIZE)

/-- `unpack_length(raw)`: `struct.unpack('!H', raw[CODE_SIZE:CODE_SIZE+LENGTH_SIZE])[0]`. -/
def unpack_length (raw : List Nat) : Option Nat :=
  struct_unpack_H ((raw.drop CODE_SIZE).take LENGTH_SIZE)

/-- `unpack_data(raw, length)`: returns `raw[HEADER_SIZE:HEADER_SIZE+length]`
when `length > 0 and length < len(raw)`, else Python `None`. The Python
slice truncates silently, as `List.take` does. This function itself never
raises; the returned `Option` is the payload's own optionality. -/
def unpack_data (raw : List Nat) (length : Nat) : Option (List Nat) :=
  if length > 0 ∧ length < raw.length then
    some ((raw.drop HEADER_SIZE).take length)
  else
    none

/-- `decode(raw)`: unpack code, length, then data. The outer `Option` models
a raised `struct.error` (when `raw` has fewer than 4 bytes). -/
def decode (raw : List Nat) : Option Message := do
  let code ← unpack_code raw
  let length ← unpack_length raw
  let data := unpack_data raw length
  return { code := code, data := data }

/-! ## Message construction helpers (cluck_message.py) -/

/-- `pack_motd(text)`. -/
def pack_motd (text : String) : Option (List Nat) :=
  Message.pack { code := CODE_MOTD, data := some (utf8_encode text) }

/-- `pack_motd_req()`: packs a message whose data is `None`. -/
def pack_motd_req : Option (List Nat) :=
  Message.pack { code := CODE_MOTD_REQUEST, data := none }

/-- `pack_cmd_success(text)`. -/
def pack_cmd_success (text : String) : Option (List Nat) :=
  Message.pack { code := CODE_COMMAND_SUCCESS, data := some (utf8_encode text) }

/-- `pack_cmd_error(text)`. -/
def pack_cmd_error (text : String) : Option (List Nat) :=
  Message.pack { code := CODE_COMMAND_ERROR, data := some (utf8_encode text) }

/-- `pack_register_user(text)`. -/
def pack_register_user (text : String) : Option (List Nat) :=
  Message.pack { code := CODE_REGISTER_USER, data := some (utf8_encode text) }

/-- `pack_user_status(text)`. -/
def pack_user_status (text : String) : Option (List Nat) :=
  Message.pack { code := CODE_USER_STATUS, data := some (utf8_encode text) }

/-- `pack_whoami()`: packs a message whose data is `None`. -/
def pack_whoami : Option (List Nat) :=
  Message.pack { code := CODE_WHOAMI, data := none }

/-! ## Python bytes repr, used by the incomplete-header error text
(`'... {}'.format(data)` on a `bytes` value). -/

/-- Lowercase hex digit. -/
def hexdigit (n : Nat) : Char :=
  if n < 10 then Char.ofNat (48 + n) else Char.ofNat (87 + n)

/-- One byte of CPython's `bytes.__repr__`, given the chosen quote byte. -/
def byte_repr_char (q : Nat) (b : Nat) : List Char :=
  if b = 92 then ['\\', '\\']
  else if b = q then ['\\', Char.ofNat q]
  else if b = 9 then ['\\', 't']
  else if b = 10 then ['\\', 'n']
  else if b = 13 then ['\\', 'r']
  else if 32 ≤ b ∧ b < 127 then [Char.ofNat b]
  else ['\\', 'x', hexdigit (b / 16), hexdigit (b % 16)]

/-- CPython `repr(bytes)`: `b'...'`, using double quotes when the data holds
a single quote but no double quote. -/
def bytes_repr (data : List Nat) : String :=
  let q : Nat := if 39 ∈ data ∧ ¬ 34 ∈ data then 34 else 39
  String.mk ('b' :: Char.ofNat q :: ((data.map (byte_repr_char q)).flatten ++ [Char.ofNat q]))

/-! ## Server constants and username validation (cluck_server.py) -/

def STATE_CONNECTED : String := "connecting"
def STATE_READY : String := "ready"
def STATE_ERROR : String := "error"

/-- Python `str.isalpha` restricted to the ASCII range (`'a'..'z'`,
`'A'..'Z'`). Python's check additionally accepts non-ASCII Unicode letters;
theorems quantifying over arbitrary usernames therefore restrict themselves
to ASCII strings, where this model is exact. -/
def python_isalpha (c : Char) : Bool :=
  ('a' ≤ c && c ≤ 'z') || ('A' ≤ c && c ≤ 'Z')

/-- Python regex `\s` restricted to the ASCII range: tab through carriage
return (9-13), the separator controls 28-31, and space. Beyond ASCII Python
also matches Unicode whitespace; theorems quantifying over arbitrary
usernames restrict themselves to ASCII strings, where this model is exact. -/
def python_isspace (c : Char) : Bool :=
  (9 ≤ c.toNat && c.toNat ≤ 13) || (28 ≤ c.toNat && c.toNat ≤ 31) || c.toNat = 32

/-- `validate_username(username)` from cluck_server.py: four checks in
order, returning the first failing check's error string, or `None` when all
pass. `username[0]` is modelled with `headD` (only reachable when the
length check has already ensured the string is nonempty). -/
def validate_username (username : String) : Option String :=
  if username.length < 1 then
    some "user names must contain least one character."
  else if username.length > 12 then
    some "user names cannot contain more than twelve characters."
  else if ¬ python_isalpha (username.data.headD 'A') then
    some "user names must begin with alphanumeric characters."
  else if username.data.any python_isspace then
    some "user names cannot contain whitespace."
  else
    none

/-! ## Per-connection session state and handlers (cluck_server.py)

Each `CluckServer` protocol object owns `self.user`; the handlers below are
translated from `_handle_whoami_request`, `_handle_register_user`,
`_handle_motd_request` and `data_received`. A handler returns the updated
session together with the list of frames written to this connection's
transport. A Python exception inside a handler is caught by
`data_received`'s top-level `try/except` (which only logs), so a raise
point simply terminates the handler: mutations and sends that happened
before the raise are kept, nothing further is sent. -/

/-- The per-connection mutable state of a `CluckServer` object. -/
structure Session where
  user : Option String
deriving DecidableEq, Repr

/-- Modelled from the spec: `get_motd` invokes the external
banner-generation capability (pyfiglet `Figlet(font='slant')` rendering),
an external collaborator returning arbitrary printable text; modelled as a
fixed string. -/
def get_motd : String := "Cluck!"

/-- `_handle_whoami_request`: Python tests `if user:` (truthiness), so
`None` and the empty string both take the error branch. -/
def handle_whoami_request (s : Session) (_message : Message) :
    Session × List (List Nat) :=
  match s.user with
  | some user =>
    if user.isEmpty then
      match pack_cmd_error "user_status: host has no registered users." with
      | some f => (s, [f])
      | none => (s, [])
    else
      match pack_user_status user with
      | some f => (s, [f])
      | none => (s, [])
  | none =>
    match pack_cmd_error "user_status: host has no registered users." with
    | some f => (s, [f])
    | none => (s, [])

/-- `_handle_register_user`: decode the payload as text (an undecodable
payload raises, caught upstream with nothing sent and the session
unchanged), validate, then either reply with the validation error or store
the username and confirm. The `self.user = user` assignment happens before
the success reply is packed, so it persists even if packing were to
raise. -/
def handle_register_user (s : Session) (message : Message) :
    Session × List (List Nat) :=
  match (if message.has_data then message.get_data_ascii else some "") with
  | none => (s, [])
  | some user =>
    match validate_username user with
    | some error =>
      match pack_cmd_error ("register_user_error: " ++ error) with
      | some f => (s, [f])
      | none => (s, [])
    | none =>
      let s2 : Session := { user := some user }
      match pack_cmd_success ("register_user_success: " ++ user ++ " confirmed.") with
      | some f => (s2, [f])
      | none => (s2, [])

/-- `_handle_motd_request`. -/
def handle_motd_request (s : Session) (_message : Message) :
    Session × List (List Nat) :=
  match pack_motd get_motd with
  | some f => (s, [f])
  | none => (s, [])

/-- `data_received`: short chunks are answered with an incomplete-header
COMMAND_ERROR; otherwise the chunk is decoded and dispatched through
`self._protocol_paths` (keys MOTD_REQUEST, REGISTER_USER, WHOAMI); an
unrecognized code is answered with a bad-message-code COMMAND_ERROR. Any
exception is caught by the top-level `try/except`, which logs and sends
nothing further. Note that no branch touches the shared connection registry
or the connection-state map. -/
def data_received (s : Session) (data : List Nat) : Session × List (List Nat) :=
  if data.length < HEADER_SIZE then
    match pack_cmd_error ("malformed_packet_error: incomplete header, " ++ bytes_repr data) with
    | some f => (s, [f])
    | none => (s, [])
  else
    match decode data with
    | none => (s, [])
    | some message =>
      if message.get_code = CODE_MOTD_REQUEST then handle_motd_request s message
      else if message.get_code = CODE_REGISTER_USER then handle_register_user s message
      else if message.get_code = CODE_WHOAMI then handle_whoami_request s message
      else
        match pack_cmd_error ("malformed_packet_error: bad message code (" ++
            toString message.get_code ++ ")") with
        | some f => (s, [f])
        | none => (s, [])

/-! ## Shared registry (cluck_server.py): `connections` list and
`connection_states` dict, mutated by `_initialize_connection`,
`connection_lost` and read by `_broadcast`. -/

/-- Transport handles, one per live connection. -/
abbrev Transport := Nat

/-- Python `dict` lookup `d[k]`: first matching key; `none` models the
raised `KeyError`. -/
def dict_get {α : Type} : List (Transport × α) → Transport → Option α
  | [], _ => none
  | (k, v) :: rest, t => if k = t then some v else dict_get rest t

/-- Python `dict` assignment `d[k] = v`: replace the existing entry for the
key in place, or append a new one. -/
def dict_set {α : Type} : List (Transport × α) → Transport → α → List (Transport × α)
  | [], t, v => [(t, v)]
  | (k, w) :: rest, t, v =>
    if k = t then (t, v) :: rest else (k, w) :: dict_set rest t v

/-- Python `dict.pop(k)` with no default: remove the entry; `none` models
the raised `KeyError`. -/
def dict_pop {α : Type} : List (Transport × α) → Transport → Option (List (Transport × α))
  | [], _ => none
  | (k, v) :: rest, t =>
    if k = t then some rest else (dict_pop rest t).map (fun r => (k, v) :: r)

/-- Python `list.remove(x)`: remove the first occurrence; `none` models the
raised `ValueError` when absent (raised before any mutation). -/
def list_remove : List Transport → Transport → Option (List Transport)
  | [], _ => none
  | x :: xs, t =>
    if x = t then some xs else (list_remove xs t).map (fun r => x :: r)

/-- The shared server context: `connections` (a list of transports) and
`connection_states` (a dict from transport to state string), as created in
`run_server` and passed to every `CluckServer`. -/
structure ServerCtx where
  connections : List Transport
  connection_states : List (Transport × String)
deriving DecidableEq, Repr

/-- `_initialize_connection(transport)` (called from `connection_made`):
append the transport to `connections` and set its state to
`STATE_CONNECTED`. -/
def init_connection (ctx : ServerCtx) (t : Transport) : ServerCtx :=
  { connections := ctx.connections ++ [t],
    connection_states := dict_set ctx.connection_states t STATE_CONNECTED }

/-- `connection_lost`: `self.connections.remove(self.transport)` then
`self.connection_states.pop(self.transport)`. `none` models the raised
exception; `list.remove` raises before mutating anything, so a `none`
result corresponds to the registry being left as it was. (The mixed case —
transport in `connections` but not in `connection_states` — cannot arise in
reachable states, where the two are kept in sync.) -/
def connection_lost (ctx : ServerCtx) (t : Transport) : Option ServerCtx := do
  let conns ← list_remove ctx.connections t
  let states ← dict_pop ctx.connection_states t
  return { connections := conns, connection_states := states }

/-- An asyncio transport write attempt. Modelled from the spec: writes are
fire-and-forget into the transport's own buffer; a per-target failure
(`fails t`) is logged by the event loop and never raised to the caller.
The result records the target and whether its write failed. -/
def transport_write (fails : Transport → Bool) (t : Transport) (_data : List Nat) :
    Transport × Bool :=
  (t, fails t)

/-- The loop body of `_broadcast`: for each transport in `connections`, look
its state up in `connection_states` (a missing key raises `KeyError`,
modelled by `none`) and write to it only when the state is `STATE_READY`. -/
def broadcast_go (states : List (Transport × String)) (fails : Transport → Bool)
    (data : List Nat) : List Transport → Option (List (Transport × Bool))
  | [] => some []
  | t :: ts =>
    match dict_get states t with
    | none => none
    | some st =>
      if st = STATE_READY then
        (broadcast_go states fails data ts).map
          (fun rest => transport_write fails t data :: rest)
      else
        broadcast_go states fails data ts

/-- `_broadcast(data)`: write the frame to every connection whose state is
`STATE_READY`, in list order. -/
def broadcast (ctx : ServerCtx) (fails : Transport → Bool) (data : List Nat) :
    Option (List (Transport × Bool)) :=
  broadcast_go ctx.connection_states fails data ctx.connections

/-! ## Whole-system event model

One reactor multiplexes all connections (spec, section 5): events arrive
one at a time and each runs to completion. `connect` models
`connection_made` with a fresh transport handle — asyncio hands every new
connection a distinct transport object, modelled by a counter.
`dataReceived t bytes` models the `data_received` callback on the protocol
object owning `t`; `disconnect t` models `connection_lost` (whose exception,
if any, is swallowed and logged by the event loop). -/

structure SystemState where
  ctx : ServerCtx
  sessions : List (Transport × Option String)
  next_id : Nat
deriving DecidableEq, Repr

inductive Event where
  | connect : Event
  | dataReceived : Transport → List Nat → Event
  | disconnect : Transport → Event
deriving DecidableEq, Repr

def step (st : SystemState) : Event → SystemState
  | .connect =>
    let t := st.next_id
    { ctx := init_connection st.ctx t,
      sessions := st.sessions ++ [(t, none)],
      next_id := st.next_id + 1 }
  | .dataReceived t bytes =>
    match dict_get st.sessions t with
    | some u =>
      let r := data_received { user := u } bytes
      { st with sessions := dict_set st.sessions t r.1.user }
    | none => st
  | .disconnect t =>
    match connection_lost st.ctx t with
    | some ctx2 => { st with ctx := ctx2 }
    | none => st

def init_state : SystemState :=
  { ctx := { connections := [], connection_states := [] },
    sessions := [], next_id := 0 }

/-- The system state after a sequence of reactor events, starting from the
freshly started server. -/
def run_events (events : List Event) : SystemState :=
  events.foldl step init_state

/-! ## Spec-side reformulation for C4: ordered validation rules -/

/-- A validation policy as an ordered list of (passing predicate, error
text) pairs: the first failing rule's error wins, and `none` is returned
when every rule passes. -/
def first_rule_error : List ((String → Bool) × String) → String → Option String
  | [], _ => none
  | (p, msg) :: rest, u => if p u then first_rule_error rest u else some msg

/-- The four username rules, in the order the claim lists them, paired with
the error texts the code actually produces. -/
def username_rules : List ((String → Bool) × String) :=
  [(fun u => decide (1 ≤ u.length), "user names must contain least one character."),
   (fun u => decide (u.length ≤ 12), "user names cannot contain more than twelve characters."),
   (fun u => python_isalpha (u.data.headD 'A'), "user names must begin with alphanumeric characters."),
   (fun u => !(u.data.any python_isspace), "user names cannot contain whitespace.")]

/-! ## Helper lemmas -/

theorem get_length_some (code : Nat) (d : List Nat) :
    Message.get_length { code := code, data := some d } = d.length := by
  cases d <;> simp [Message.get_length, EMPTY_LENGTH]

theorem pack_some_eq (code : Nat) (d : List Nat)
    (hc : code ≤ 65535) (hl : d.length ≤ 65535) :
    Message.pack { code := code, data := some d } =
      some (code / 256 :: code % 256 :: d.length / 256 :: d.length % 256 :: d) := by
  simp [Message.pack, Message._pack_header, Message._pack_code, Message._pack_length,
    get_length_some, struct_pack_H, hc, hl]

theorem decode_cons_eq (a b c e : Nat) (d : List Nat) :
    decode (a :: b :: c :: e :: d) =
      some { code := a * 256 + b,
             data := unpack_data (a :: b :: c :: e :: d) (c * 256 + e) } := by
  simp [decode, unpack_code, unpack_length, struct_unpack_H, CODE_SIZE, LENGTH_SIZE]

theorem list_remove_eq_none_of_not_mem (l : List Transport) (t : Transport)
    (h : t ∉ l) : list_remove l t = none := by
  induction l with
  | nil => rfl
  | cons x xs ih =>
    simp only [List.mem_cons, not_or] at h
    simp [list_remove, Ne.symm h.1, ih h.2]

/-! ## Claim theorems: codec -/

/-- C1: for every code in the fixed enumeration and every byte sequence
`data` with `0 ≤ len(data) ≤ 65535`, decoding the encoding of
`(code, data)` reproduces `code` and `data` exactly; for empty data the
decoded payload is absent (Python `None`) with reported length 0. -/
theorem c1_round_trip :
    ∀ code ∈ codes_enum, ∀ data : List Nat,
      (∀ b ∈ data, b < 256) → data.length ≤ 65535 →
      ∃ enc m, Message.pack { code := code, data := some data } = some enc ∧
        decode enc = some m ∧ m.get_code = code ∧
        (data = [] → m.data = none ∧ m.get_length = 0) ∧
        (data ≠ [] → m.data = some data ∧ m.get_length = data.length) := by
  intro code hcode data _hbytes hlen
  have hc : code ≤ 65535 := by fin_cases hcode <;> decide
  refine ⟨_, _, pack_some_eq code data hc hlen, decode_cons_eq _ _ _ _ _, ?_, ?_, ?_⟩
  · show code / 256 * 256 + code % 256 = code
    omega
  · rintro rfl
    refine ⟨?_, ?_⟩ <;> simp [unpack_data, Message.get_length, EMPTY_LENGTH]
  · intro hne
    have hpos : 0 < data.length := List.length_pos.mpr hne
    have hL : data.length / 256 * 256 + data.length % 256 = data.length := by omega
    have hdata : unpack_data
        (code / 256 :: code % 256 :: data.length / 256 :: data.length % 256 :: data)
        (data.length / 256 * 256 + data.length % 256) = some data := by
      rw [hL]
      simp [unpack_data, HEADER_SIZE, CODE_SIZE, LENGTH_SIZE, hpos, List.drop]
      omega
    rw [hdata]
    exact ⟨rfl, get_length_some code data⟩

/-- C1 witness: the round trip at code WHOAMI with payload `[65, 66]`. -/
theorem c1_round_trip_witness :
    CODE_WHOAMI ∈ codes_enum ∧ (∀ b ∈ [65, 66], b < 256) ∧
    ([65, 66] : List Nat).length ≤ 65535 ∧
    (∃ enc m, Message.pack { code := CODE_WHOAMI, data := some [65, 66] } = some enc ∧
      decode enc = some m ∧ m.get_code = CODE_WHOAMI ∧
      (([65, 66] : List Nat) = [] → m.data = none ∧ m.get_length = 0) ∧
      (([65, 66] : List Nat) ≠ [] →
        m.data = some [65, 66] ∧ m.get_length = ([65, 66] : List Nat).length)) :=
  ⟨by decide, by decide, by decide,
   c1_round_trip CODE_WHOAMI (by decide) [65, 66] (by decide) (by decide)⟩

/-- C2 counterexample: the raw frame `[0, 110, 0, 1, 65]` has
`len(raw) = 5 ≥ 4` and declared length `L = 1 = len(raw) - 4 > 0`, yet
decode CAPTURES the payload (`b'A'`) rather than treating it as absent:
the strict guard compares `L < len(raw)` (total frame length, header
included), so an exact-fit payload always passes it. -/
theorem c2_counterexample :
    decode [0, 110, 0, 1, 65] = some { code := CODE_WHOAMI, data := some [65] } ∧
    ({ code := CODE_WHOAMI, data := some [65] } : Message).data ≠ none := by decide

/-- C2 amended: for every raw byte string with `len(raw) ≥ 4` whose
declared length field `L` satisfies `L = len(raw) - 4` and `L > 0`, decode
captures the payload in full (all remaining bytes), because the guard's
strict comparison is `L < len(raw)` with `len(raw)` the total frame length
including the 4-byte header; payload bytes are captured exactly when
`0 < L < len(raw)`. -/
theorem c2_amended_exact_fit_captured :
    ∀ (raw : List Nat) (L : Nat), 4 ≤ raw.length → unpack_length raw = some L →
      (0 < L → L = raw.length - 4 →
        ∃ m, decode raw = some m ∧ m.data = some (raw.drop 4) ∧
          m.get_length = raw.length - 4) ∧
      (∀ m, decode raw = some m → (m.data ≠ none ↔ 0 < L ∧ L < raw.length)) := by
  intro raw L hlen hL
  rcases raw with _ | ⟨a, _ | ⟨b, _ | ⟨c, _ | ⟨e, rest⟩⟩⟩⟩ <;>
    simp only [List.length] at hlen <;> try omega
  have hLval : L = c * 256 + e := by
    simpa [unpack_length, struct_unpack_H, CODE_SIZE, LENGTH_SIZE] using hL.symm
  subst hLval
  constructor
  · intro hpos hfit
    have hfit' : c * 256 + e = rest.length := by
      simp only [List.length_cons] at hfit
      omega
    have hdata : unpack_data (a :: b :: c :: e :: rest) (c * 256 + e) = some rest := by
      simp only [unpack_data, HEADER_SIZE, CODE_SIZE, LENGTH_SIZE, List.length_cons]
      rw [if_pos ⟨hpos, by omega⟩]
      rw [hfit']
      simp [List.drop]
    have hm : decode (a :: b :: c :: e :: rest) =
        some { code := a * 256 + b, data := some rest } := by
      rw [decode_cons_eq, hdata]
    refine ⟨{ code := a * 256 + b, data := some rest }, hm, ?_, ?_⟩
    · simp [List.drop]
    · rw [get_length_some]
      simp only [List.length_cons]
      omega
  · intro m hm
    rw [decode_cons_eq a b c e rest] at hm
    have hm' := Option.some.inj hm
    subst hm'
    simp only [unpack_data]
    split
    · simp_all
    · simp_all

/-- C2 amended witness: the exact-fit frame `[0, 110, 0, 1, 65]` with
`L = 1`. -/
theorem c2_amended_witness :
    4 ≤ ([0, 110, 0, 1, 65] : List Nat).length ∧
    unpack_length [0, 110, 0, 1, 65] = some 1 ∧
    ((0 < 1 → 1 = ([0, 110, 0, 1, 65] : List Nat).length - 4 →
      ∃ m, decode [0, 110, 0, 1, 65] = some m ∧
        m.data = some (([0, 110, 0, 1, 65] : List Nat).drop 4) ∧
        m.get_length = ([0, 110, 0, 1, 65] : List Nat).length - 4) ∧
     (∀ m, decode [0, 110, 0, 1, 65] = some m →
       (m.data ≠ none ↔ 0 < 1 ∧ 1 < ([0, 110, 0, 1, 65] : List Nat).length))) :=
  ⟨by decide, by decide,
   c2_amended_exact_fit_captured [0, 110, 0, 1, 65] 1 (by decide) (by decide)⟩

/-- C3 (code bug): `Message.pack` on a message whose data is absent
(Python `None`) raises `TypeError` (`bytes + None`), so the repo's own
helpers `pack_whoami()` and `pack_motd_req()` can never return the claimed
4-byte header with a zero length field. `none` here models the raised
exception. -/
theorem c3_pack_absent_data_raises :
    Message.pack { code := CODE_WHOAMI, data := none } = none ∧
    pack_whoami = none ∧ pack_motd_req = none := by decide

/-- C10: for every raw byte string with `len(raw) ≥ 4`, decode returns a
Message without failing, whatever the code and declared length; the
captured payload is either absent or the (possibly truncated) slice
`raw[4:4+L]`, whose length never exceeds the `len(raw) - 4` bytes actually
present — no out-of-bounds read occurs. -/
theorem c10_decode_total :
    ∀ raw : List Nat, 4 ≤ raw.length →
      ∃ m L, decode raw = some m ∧ unpack_length raw = some L ∧
        (m.data = none ∨
          (m.data = some ((raw.drop 4).take L) ∧
           ((raw.drop 4).take L).length ≤ raw.length - 4)) := by
  intro raw hlen
  rcases raw with _ | ⟨a, _ | ⟨b, _ | ⟨c, _ | ⟨e, rest⟩⟩⟩⟩ <;>
    simp only [List.length] at hlen <;> try omega
  refine ⟨_, c * 256 + e, decode_cons_eq a b c e rest, ?_, ?_⟩
  · simp [unpack_length, struct_unpack_H, CODE_SIZE, LENGTH_SIZE]
  · simp only [unpack_data]
    split
    · right
      constructor
      · simp [HEADER_SIZE, CODE_SIZE, LENGTH_SIZE]
      · simp only [List.length_take, List.length_drop]
        omega
    · left; rfl

/-- C10 witness: the frame `[0, 1, 0, 4, 7]` declares length 4 with only
one payload byte present; decode succeeds and truncates the payload to
`[7]`. -/
theorem c10_decode_total_witness :
    4 ≤ ([0, 1, 0, 4, 7] : List Nat).length ∧
    (∃ m L, decode [0, 1, 0, 4, 7] = some m ∧
      unpack_length [0, 1, 0, 4, 7] = some L ∧
      (m.data = none ∨
        (m.data = some ((([0, 1, 0, 4, 7] : List Nat).drop 4).take L) ∧
         ((([0, 1, 0, 4, 7] : List Nat).drop 4).take L).length ≤
           ([0, 1, 0, 4, 7] : List Nat).length - 4))) :=
  ⟨by decide, c10_decode_total [0, 1, 0, 4, 7] (by decide)⟩

/-! ## Claim theorems: username validation and dispatch -/

/-- C4 counterexample: on the empty username the code returns
`'user names must contain least one character.'` — prefixed with
`'user names '` and missing the word `'at'` — not the text
`'must contain at least one character.'` the claim lists. -/
theorem c4_counterexample :
    validate_username "" = some "user names must contain least one character." ∧
    validate_username "" ≠ some "must contain at least one character." := by decide

/-- C4 amended: `validate_username` applies the four rules in order with
the first failing rule winning — length ≥ 1, length ≤ 12, first character
alphabetic, no whitespace anywhere — returning for the violated rule
exactly the error text the code carries (each prefixed `'user names '`,
the first reading `'must contain least one character.'` without `'at'`),
and no error when all four pass; `""` and `"a"*13` give length errors,
`"1abc"` a leading-character error, `"ab cd"` a whitespace error, and
`"Alice"` no error. -/
theorem c4_rules_in_order_with_code_texts :
    (∀ u : String, validate_username u = first_rule_error username_rules u) ∧
    validate_username "" = some "user names must contain least one character." ∧
    validate_username "aaaaaaaaaaaaa" =
      some "user names cannot contain more than twelve characters." ∧
    validate_username "1abc" =
      some "user names must begin with alphanumeric characters." ∧
    validate_username "ab cd" = some "user names cannot contain whitespace." ∧
    validate_username "Alice" = none := by
  refine ⟨?_, by decide, by decide, by decide, by decide, by decide⟩
  intro u
  simp only [validate_username, first_rule_error, username_rules, decide_eq_true_eq,
    Bool.not_eq_true']
  split_ifs <;> simp_all <;> omega


/-- C4 amended witness: the rule-list reformulation agrees with the code on
a concrete username. -/
theorem c4_rules_in_order_with_code_texts_witness :
    validate_username "Bob" = first_rule_error username_rules "Bob" :=
  c4_rules_in_order_with_code_texts.1 "Bob"

/-- C5: on a session with no registered username, a received WHOAMI frame
is answered with the COMMAND_ERROR `'user_status: host has no registered
users.'`; after a successful REGISTER_USER with payload `b'Bob'` on that
session the stored user is `"Bob"`, the reply is COMMAND_SUCCESS, and a
subsequent WHOAMI is answered with exactly the USER_STATUS frame whose
payload decodes to `"Bob"`. -/
theorem c5_whoami_register_whoami :
    data_received { user := none } [0, 110, 0, 0] =
      ({ user := none },
       (pack_cmd_error "user_status: host has no registered users.").toList) ∧
    decode [0, 110, 0, 0] = some { code := CODE_WHOAMI, data := none } ∧
    (data_received { user := none } [0, 100, 0, 3, 66, 111, 98]).1 =
      { user := some "Bob" } ∧
    (data_received { user := none } [0, 100, 0, 3, 66, 111, 98]).2 =
      (pack_cmd_success "register_user_success: Bob confirmed.").toList ∧
    data_received { user := some "Bob" } [0, 110, 0, 0] =
      ({ user := some "Bob" }, [[0, 101, 0, 3, 66, 111, 98]]) ∧
    decode [0, 101, 0, 3, 66, 111, 98] =
      some { code := CODE_USER_STATUS, data := some [66, 111, 98] } ∧
    utf8_decode [66, 111, 98] = some "Bob" := by decide

/-- C7 counterexample: after a connection for transport 7 is established
and then removed, removing it a second time fails — `list.remove` raises
`ValueError` (modelled by `none`) instead of leaving the registry
unchanged. -/
theorem c7_counterexample :
    connection_lost
        (init_connection { connections := [], connection_states := [] } 7) 7 =
      some { connections := [], connection_states := [] } ∧
    connection_lost { connections := [], connection_states := [] } 7 = none := by decide

/-- C7 amended: removal is NOT idempotent-safe: removing a session whose
transport is not in the registry raises (`ValueError` from `list.remove`,
modelled by `none`); the raise happens before any mutation, so the
registry the caller holds is left as it was, but the operation fails
rather than succeeding silently. -/
theorem c7_remove_absent_raises :
    ∀ (ctx : ServerCtx) (t : Transport), t ∉ ctx.connections →
      connection_lost ctx t = none := by
  intro ctx t h
  simp [connection_lost, list_remove_eq_none_of_not_mem ctx.connections t h]

/-- C7 amended witness: removing transport 2 from a registry holding only
transport 1 raises. -/
theorem c7_remove_absent_raises_witness :
    (2 : Transport) ∉
      ({ connections := [1], connection_states := [(1, STATE_CONNECTED)] } :
        ServerCtx).connections ∧
    connection_lost
      { connections := [1], connection_states := [(1, STATE_CONNECTED)] } 2 = none :=
  ⟨by decide,
   c7_remove_absent_raises
     { connections := [1], connection_states := [(1, STATE_CONNECTED)] } 2 (by decide)⟩

/-- C8 counterexample: the REGISTER_USER frame `[0, 100, 0, 4, 97, 98, 195,
169]` carries the payload `b'ab\xc3\xa9'`, which is not ASCII-decodable
(it holds bytes above 127), yet the handler decodes it with UTF-8 to
`"abé"`, registers that username, and sends a COMMAND_SUCCESS response —
not the claimed silent failure with unchanged session state. -/
theorem c8_counterexample :
    ¬ (∀ b ∈ [97, 98, 195, 169], b < 128) ∧
    utf8_decode [97, 98, 195, 169] = some "abé" ∧
    (data_received { user := none } [0, 100, 0, 4, 97, 98, 195, 169]).1 =
      { user := some "abé" } ∧
    (data_received { user := none } [0, 100, 0, 4, 97, 98, 195, 169]).2 =
      (pack_cmd_success "register_user_success: abé confirmed.").toList ∧
    (data_received { user := none } [0, 100, 0, 4, 97, 98, 195, 169]).2 ≠ [] := by
  decide

/-- C8 amended: for every REGISTER_USER frame whose payload bytes are not
UTF-8-decodable (Python `bytes.decode()` defaults to UTF-8, not ASCII),
the `UnicodeDecodeError` is caught by `data_received`'s top-level handler,
which logs it and sends no response of any kind; the session's user is
unchanged and the connection stays open. Non-ASCII payloads that are valid
UTF-8 are instead decoded and processed normally. -/
theorem c8_undecodable_payload_silent :
    ∀ (s : Session) (payload : List Nat),
      payload.length ≤ 65535 →
      utf8_decode payload = none →
      data_received s
        (0 :: 100 :: payload.length / 256 :: payload.length % 256 :: payload) =
        (s, []) := by
  intro s payload _hlen hdec
  have hne : payload ≠ [] := by
    intro h
    rw [h] at hdec
    exact absurd hdec (by decide)
  have hpos : 0 < payload.length := List.length_pos.mpr hne
  have hdata : unpack_data
      (0 :: 100 :: payload.length / 256 :: payload.length % 256 :: payload)
      (payload.length / 256 * 256 + payload.length % 256) = some payload := by
    have hLen : payload.length / 256 * 256 + payload.length % 256 = payload.length := by
      omega
    rw [hLen]
    simp only [unpack_data, HEADER_SIZE, CODE_SIZE, LENGTH_SIZE, List.length_cons]
    rw [if_pos ⟨hpos, by omega⟩]
    simp [List.drop]
  have hmsg : decode
      (0 :: 100 :: payload.length / 256 :: payload.length % 256 :: payload) =
      some { code := 100, data := some payload } := by
    rw [decode_cons_eq, hdata]
  have hemp : payload.isEmpty = false := by
    cases payload
    · exact absurd rfl hne
    · rfl
  have hhandle : handle_register_user s { code := 100, data := some payload } =
      (s, []) := by
    simp [handle_register_user, Message.has_data, Message.get_data_ascii, hemp, hdec]
  have hlen4 : ¬ ((0 :: 100 :: payload.length / 256 :: payload.length % 256 ::
      payload).length < HEADER_SIZE) := by
    simp only [List.length_cons, HEADER_SIZE, CODE_SIZE, LENGTH_SIZE]
    omega
  rw [data_received, if_neg hlen4, hmsg]
  have h2 : ({ code := 100, data := some payload } : Message).get_code ≠
      CODE_MOTD_REQUEST := by
    simp [Message.get_code, CODE_MOTD_REQUEST]
  have h3 : ({ code := 100, data := some payload } : Message).get_code =
      CODE_REGISTER_USER := rfl
  simp only [h3, if_neg h2, if_pos]
  exact hhandle

/-- C8 amended witness: the single invalid byte `0xFF` as payload produces
no response and leaves the session unchanged. -/
theorem c8_undecodable_payload_silent_witness :
    ([255] : List Nat).length ≤ 65535 ∧
    utf8_decode [255] = none ∧
    data_received { user := some "Bob" }
      (0 :: 100 :: ([255] : List Nat).length / 256 ::
        ([255] : List Nat).length % 256 :: [255]) =
      ({ user := some "Bob" }, []) :=
  ⟨by decide, by decide,
   c8_undecodable_payload_silent { user := some "Bob" } [255] (by decide) (by decide)⟩

/-! ## Claim theorems: broadcast and the reachable-state invariant -/

theorem broadcast_go_spec (states : List (Transport × String))
    (fails : Transport → Bool) (data : List Nat) :
    ∀ conns : List Transport,
      (∀ t ∈ conns, (dict_get states t).isSome) →
      ∃ l, broadcast_go states fails data conns = some l ∧
        l.map Prod.fst =
          conns.filter (fun t => dict_get states t == some STATE_READY) := by
  intro conns
  induction conns with
  | nil => exact fun _ => ⟨[], rfl, rfl⟩
  | cons t ts ih =>
    intro h
    obtain ⟨st, hst⟩ := Option.isSome_iff_exists.mp (h t (by simp))
    obtain ⟨l, hl, hmap⟩ := ih (fun x hx => h x (by simp [hx]))
    by_cases hready : st = STATE_READY
    · refine ⟨transport_write fails t data :: l, ?_, ?_⟩
      · simp [broadcast_go, hst, hready, hl]
      · simp [transport_write, hmap, List.filter_cons, hst, hready]
    · refine ⟨l, ?_, ?_⟩
      · simp [broadcast_go, hst, hready, hl]
      · simp [hmap, List.filter_cons, hst, hready]

/-- C6: for every registry in which every listed connection has a recorded
state, broadcast attempts a write to exactly the connections whose state is
`STATE_READY` — sessions in other states are skipped silently — and the
set of attempted targets does not depend on which writes fail (`fails` is
universally quantified and writes never raise), so a failure on one target
never prevents delivery to the rest. -/
theorem c6_broadcast_ready_only :
    ∀ (ctx : ServerCtx) (fails : Transport → Bool) (data : List Nat),
      (∀ t ∈ ctx.connections, (dict_get ctx.connection_states t).isSome) →
      ∃ l, broadcast ctx fails data = some l ∧
        l.map Prod.fst = ctx.connections.filter
          (fun t => dict_get ctx.connection_states t == some STATE_READY) ∧
        l.length = (ctx.connections.filter
          (fun t => dict_get ctx.connection_states t == some STATE_READY)).length := by
  intro ctx fails data h
  obtain ⟨l, hl, hmap⟩ := broadcast_go_spec ctx.connection_states fails data
    ctx.connections h
  exact ⟨l, hl, hmap, by rw [← hmap, List.length_map]⟩

/-- The concrete registry used by the C6 witness: three connections, the
first and third READY, the second still CONNECTING. -/
def c6_witness_ctx : ServerCtx :=
  { connections := [1, 2, 3],
    connection_states := [(1, STATE_READY), (2, STATE_CONNECTED), (3, STATE_READY)] }

/-- C6 witness: three connections of which exactly two are READY; the write
to the first target fails, yet both READY targets receive a write
attempt. -/
theorem c6_broadcast_ready_only_witness :
    (∀ t ∈ c6_witness_ctx.connections,
      (dict_get c6_witness_ctx.connection_states t).isSome) ∧
    (∃ l, broadcast c6_witness_ctx (fun t => t == 1) [0] = some l ∧
      l.map Prod.fst = c6_witness_ctx.connections.filter
        (fun t => dict_get c6_witness_ctx.connection_states t == some STATE_READY) ∧
      l.length = (c6_witness_ctx.connections.filter
        (fun t => dict_get c6_witness_ctx.connection_states t ==
          some STATE_READY)).length) :=
  ⟨by decide, c6_broadcast_ready_only c6_witness_ctx (fun t => t == 1) [0] (by decide)⟩

/-! Dictionary and removal lemmas for the reachable-state invariant. -/

theorem dict_get_set_self {α : Type} (d : List (Transport × α)) (t : Transport)
    (v : α) : dict_get (dict_set d t v) t = some v := by
  induction d with
  | nil => simp [dict_set, dict_get]
  | cons p rest ih =>
    by_cases h : p.1 = t
    · simp [dict_set, dict_get, h]
    · simp [dict_set, dict_get, h, ih]

theorem dict_get_set_ne {α : Type} (d : List (Transport × α)) (t u : Transport)
    (v : α) (h : u ≠ t) : dict_get (dict_set d t v) u = dict_get d u := by
  have h' : t ≠ u := Ne.symm h
  induction d with
  | nil => simp [dict_set, dict_get, h']
  | cons p rest ih =>
    by_cases hp : p.1 = t
    · simp [dict_set, dict_get, hp, h']
    · simp only [dict_set, if_neg hp]
      by_cases hu : p.1 = u
      · simp [dict_get, hu]
      · simp [dict_get, hu, ih]

theorem mem_dict_set {α : Type} (d : List (Transport × α)) (t : Transport)
    (v : α) (p : Transport × α) (h : p ∈ dict_set d t v) : p ∈ d ∨ p = (t, v) := by
  induction d with
  | nil => simpa [dict_set] using h
  | cons q rest ih =>
    by_cases hq : q.1 = t
    · rw [dict_set, if_pos hq] at h
      rcases List.mem_cons.mp h with h1 | h1
      · exact Or.inr h1
      · exact Or.inl (List.mem_cons_of_mem q h1)
    · rw [dict_set, if_neg hq] at h
      rcases List.mem_cons.mp h with h1 | h1
      · exact Or.inl (h1 ▸ List.mem_cons_self q rest)
      · rcases ih h1 with h2 | h2
        · exact Or.inl (List.mem_cons_of_mem q h2)
        · exact Or.inr h2

theorem mem_dict_pop {α : Type} (t : Transport) (p : Transport × α) :
    ∀ (d d' : List (Transport × α)), dict_pop d t = some d' → p ∈ d' → p ∈ d := by
  intro d
  induction d with
  | nil => intro d' h; simp [dict_pop] at h
  | cons q rest ih =>
    intro d' h hp
    by_cases hq : q.1 = t
    · rw [dict_pop, if_pos hq] at h
      obtain rfl := Option.some.inj h
      exact List.mem_cons_of_mem q hp
    · rw [dict_pop, if_neg hq] at h
      cases hrec : dict_pop rest t with
      | none => rw [hrec] at h; simp at h
      | some r =>
        rw [hrec] at h
        obtain rfl : q :: r = d' := Option.some.inj h
        rcases List.mem_cons.mp hp with h1 | h1
        · exact h1 ▸ List.mem_cons_self q rest
        · exact List.mem_cons_of_mem q (ih r hrec h1)

theorem dict_get_pop_ne {α : Type} (t u : Transport) (hu : u ≠ t) :
    ∀ (d d' : List (Transport × α)), dict_pop d t = some d' →
      dict_get d' u = dict_get d u := by
  intro d
  induction d with
  | nil => intro d' h; simp [dict_pop] at h
  | cons q rest ih =>
    intro d' h
    by_cases hq : q.1 = t
    · rw [dict_pop, if_pos hq] at h
      obtain rfl := Option.some.inj h
      have : q.1 ≠ u := fun hh => hu (hq.symm.trans hh).symm
      obtain ⟨q1, q2⟩ := q
      simp only [dict_get]
      rw [if_neg this]
    · rw [dict_pop, if_neg hq] at h
      cases hrec : dict_pop rest t with
      | none => rw [hrec] at h; simp at h
      | some r =>
        rw [hrec] at h
        obtain rfl : q :: r = d' := Option.some.inj h
        obtain ⟨q1, q2⟩ := q
        by_cases hqu : q1 = u
        · simp [dict_get, hqu]
        · simp only [dict_get, if_neg hqu]
          exact ih r hrec

theorem list_remove_subset (t : Transport) :
    ∀ (l l' : List Transport), list_remove l t = some l' → ∀ x ∈ l', x ∈ l := by
  intro l
  induction l with
  | nil => intro l' h; simp [list_remove] at h
  | cons y ys ih =>
    intro l' h
    by_cases hy : y = t
    · rw [list_remove, if_pos hy] at h
      obtain rfl := Option.some.inj h
      exact fun x hx => List.mem_cons_of_mem y hx
    · rw [list_remove, if_neg hy] at h
      cases hrec : list_remove ys t with
      | none => rw [hrec] at h; simp at h
      | some r =>
        rw [hrec] at h
        obtain rfl : y :: r = l' := Option.some.inj h
        intro x hx
        rcases List.mem_cons.mp hx with h1 | h1
        · exact h1 ▸ List.mem_cons_self y ys
        · exact List.mem_cons_of_mem y (ih r hrec x h1)

theorem list_remove_nodup_not_mem (t : Transport) :
    ∀ (l l' : List Transport), l.Nodup → list_remove l t = some l' →
      l'.Nodup ∧ t ∉ l' := by
  intro l
  induction l with
  | nil => intro l' _ h; simp [list_remove] at h
  | cons y ys ih =>
    intro l' hnd h
    rw [List.nodup_cons] at hnd
    by_cases hy : y = t
    · rw [list_remove, if_pos hy] at h
      obtain rfl := Option.some.inj h
      exact ⟨hnd.2, hy ▸ hnd.1⟩
    · rw [list_remove, if_neg hy] at h
      cases hrec : list_remove ys t with
      | none => rw [hrec] at h; simp at h
      | some r =>
        rw [hrec] at h
        obtain rfl : y :: r = l' := Option.some.inj h
        obtain ⟨hr, htr⟩ := ih r hnd.2 hrec
        refine ⟨List.nodup_cons.mpr ⟨?_, hr⟩, ?_⟩
        · exact fun hyr => hnd.1 (list_remove_subset t ys r hrec y hyr)
        · intro hmem
          rcases List.mem_cons.mp hmem with h1 | h1
          · exact hy h1.symm
          · exact htr h1

/-- The states invariant: transports in `connections` are distinct, bounded
by the fresh-handle counter, and every one of them — indeed every entry of
`connection_states` — is in state `STATE_CONNECTED`. -/
def StatesInv (st : SystemState) : Prop :=
  st.ctx.connections.Nodup ∧
  (∀ t ∈ st.ctx.connections, t < st.next_id) ∧
  (∀ t ∈ st.ctx.connections,
    dict_get st.ctx.connection_states t = some STATE_CONNECTED) ∧
  (∀ p ∈ st.ctx.connection_states, p.2 = STATE_CONNECTED)

theorem connection_lost_some (ctx : ServerCtx) (t : Transport) (ctx2 : ServerCtx)
    (h : connection_lost ctx t = some ctx2) :
    ∃ c2 s2, list_remove ctx.connections t = some c2 ∧
      dict_pop ctx.connection_states t = some s2 ∧
      ctx2 = { connections := c2, connection_states := s2 } := by
  unfold connection_lost at h
  cases hc : list_remove ctx.connections t with
  | none => rw [hc] at h; simp at h
  | some c2 =>
    rw [hc] at h
    cases hs : dict_pop ctx.connection_states t with
    | none => rw [hs] at h; simp at h
    | some s2 =>
      rw [hs] at h
      exact ⟨c2, s2, rfl, rfl, (Option.some.inj h).symm⟩

theorem step_preserves_inv (st : SystemState) (ev : Event)
    (h : StatesInv st) : StatesInv (step st ev) := by
  obtain ⟨hnd, hbound, hget, hall⟩ := h
  cases ev with
  | connect =>
    have hnotin : st.next_id ∉ st.ctx.connections :=
      fun hmem => Nat.lt_irrefl _ (hbound _ hmem)
    simp only [StatesInv, step, init_connection]
    refine ⟨?_, ?_, ?_, ?_⟩
    · refine List.Nodup.append hnd (List.nodup_singleton _) ?_
      intro a ha hb
      rw [List.mem_singleton] at hb
      exact hnotin (hb ▸ ha)
    · intro t ht
      rcases List.mem_append.mp ht with h1 | h1
      · exact Nat.lt_succ_of_lt (hbound t h1)
      · rw [List.mem_singleton] at h1
        exact h1 ▸ Nat.lt_succ_self _
    · intro t ht
      rcases List.mem_append.mp ht with h1 | h1
      · rw [dict_get_set_ne _ _ _ _ (Nat.ne_of_lt (hbound t h1))]
        exact hget t h1
      · rw [List.mem_singleton] at h1
        rw [h1]
        exact dict_get_set_self _ _ _
    · intro p hp
      rcases mem_dict_set _ _ _ p hp with h1 | h1
      · exact hall p h1
      · rw [h1]
  | dataReceived t bytes =>
    simp only [StatesInv, step]
    cases dict_get st.sessions t with
    | some u => exact ⟨hnd, hbound, hget, hall⟩
    | none => exact ⟨hnd, hbound, hget, hall⟩
  | disconnect t =>
    simp only [StatesInv, step]
    cases hc : connection_lost st.ctx t with
    | none => exact ⟨hnd, hbound, hget, hall⟩
    | some ctx2 =>
      obtain ⟨c2, s2, hrem, hpop, rfl⟩ := connection_lost_some st.ctx t ctx2 hc
      obtain ⟨hc2nd, htc2⟩ := list_remove_nodup_not_mem t _ c2 hnd hrem
      refine ⟨hc2nd, ?_, ?_, ?_⟩
      · exact fun x hx => hbound x (list_remove_subset t _ c2 hrem x hx)
      · intro x hx
        have hxne : x ≠ t := fun hh => htc2 (hh ▸ hx)
        rw [dict_get_pop_ne t x hxne _ s2 hpop]
        exact hget x (list_remove_subset t _ c2 hrem x hx)
      · exact fun p hp => hall p (mem_dict_pop t p _ s2 hpop hp)

theorem foldl_preserves_inv :
    ∀ (events : List Event) (st : SystemState), StatesInv st →
      StatesInv (events.foldl step st) := by
  intro events
  induction events with
  | nil => exact fun st h => h
  | cons e es ih => exact fun st h => ih (step st e) (step_preserves_inv st e h)

theorem run_events_inv (events : List Event) : StatesInv (run_events events) := by
  refine foldl_preserves_inv events init_state ⟨List.nodup_nil, ?_, ?_, ?_⟩ <;>
    simp [init_state]

theorem broadcast_go_all_connected (states : List (Transport × String))
    (fails : Transport → Bool) (data : List Nat) :
    ∀ conns : List Transport,
      (∀ t ∈ conns, dict_get states t = some STATE_CONNECTED) →
      broadcast_go states fails data conns = some [] := by
  intro conns
  induction conns with
  | nil => exact fun _ => rfl
  | cons t ts ih =>
    intro h
    have hst := h t (by simp)
    have hne : STATE_CONNECTED ≠ STATE_READY := by decide
    simp [broadcast_go, hst, hne, ih (fun x hx => h x (by simp [hx]))]

/-- C9: starting from the freshly started server, every reactor event
sequence — connections being made (each entering `STATE_CONNECTED`, the
source's name for the CONNECTING state), arbitrary received byte chunks
handled by `data_received`, and disconnections — leaves every session
recorded in the registry in state `STATE_CONNECTED`: no handler in the
recognized set ever transitions a session's state. Consequently
`_broadcast`, which only targets `STATE_READY` sessions, delivers to no
session in any reachable state. -/
theorem c9_all_states_connecting_broadcast_empty :
    ∀ (events : List Event) (fails : Transport → Bool) (data : List Nat),
      (∀ p ∈ (run_events events).ctx.connection_states, p.2 = STATE_CONNECTED) ∧
      broadcast (run_events events).ctx fails data = some [] := by
  intro events fails data
  obtain ⟨_, _, hget, hall⟩ := run_events_inv events
  exact ⟨hall, broadcast_go_all_connected _ fails data _ hget⟩

/-- C9 witness: a concrete trace — connect, register a user, connect again,
disconnect — still leaves every registered state at CONNECTING and an empty
broadcast. -/
theorem c9_all_states_connecting_broadcast_empty_witness :
    (∀ p ∈ (run_events [Event.connect,
        Event.dataReceived 0 [0, 100, 0, 3, 66, 111, 98], Event.connect,
        Event.disconnect 0]).ctx.connection_states, p.2 = STATE_CONNECTED) ∧
    broadcast (run_events [Event.connect,
        Event.dataReceived 0 [0, 100, 0, 3, 66, 111, 98], Event.connect,
        Event.disconnect 0]).ctx (fun t => t == 1) [0] = some [] :=
  c9_all_states_connecting_broadcast_empty
    [Event.connect, Event.dataReceived 0 [0, 100, 0, 3, 66, 111, 98],
     Event.connect, Event.disconnect 0] (fun t => t == 1) [0]

end Cluck
